import Mathlib

/-!
Verification development for the ParticleSim repository (src/src/main.cpp).

The C++ program stores particles as `struct Particle { float x, y, vx, vy; }`
and advances them with `update_particles`; `main` initialises the particles
with `rand()`, runs the frame loop, accumulates step latencies and renders
the particles coloured by index.  Single-precision floats are modelled as
exact rationals (`ℚ`); `rand()` results are modelled as arbitrary natural
numbers, since only the `% 500` and `% 10` residues reach the program state.
-/

/-- `struct Particle { float x, y; float vx, vy; }` (main.cpp lines 11-14). -/
structure Particle where
  x : ℚ
  y : ℚ
  vx : ℚ
  vy : ℚ
deriving DecidableEq, Repr

/-- The body of the range-based loop in `update_particles` (main.cpp
lines 28-34): `p.x += p.vx * dt; p.y += p.vy * dt;` followed by
`if (p.x < 0 || p.x > 500) p.vx *= -1;` and the same for `y`,
each test reading the already-advanced position. -/
def updateParticle (p : Particle) (dt : ℚ) : Particle :=
  let x := p.x + p.vx * dt
  let y := p.y + p.vy * dt
  let vx := if x < 0 ∨ x > 500 then p.vx * (-1) else p.vx
  let vy := if y < 0 ∨ y > 500 then p.vy * (-1) else p.vy
  ⟨x, y, vx, vy⟩

/-- `void update_particles(std::vector<Particle>& data, float dt)`
(main.cpp lines 23-35): applies the per-particle update to every slot,
in index order, mutating in place (modelled as a map). -/
def update_particles (data : List Particle) (dt : ℚ) : List Particle :=
  data.map (fun p => updateParticle p dt)

/-- One slot of the initialization loop (main.cpp lines 49-57):
`p.x = rand() % 500; p.y = rand() % 500;
 p.vx = (rand() % 10 - 5) * 5.0f; p.vy = (rand() % 10 - 5) * 5.0f;`
where `r1..r4` stand for the four successive non-negative `rand()` draws. -/
def initParticle (r1 r2 r3 r4 : ℕ) : Particle :=
  { x := ((r1 % 500 : ℕ) : ℚ)
    y := ((r2 % 500 : ℕ) : ℚ)
    vx := (((r3 % 10 : ℕ) : ℚ) - 5) * 5
    vy := (((r4 % 10 : ℕ) : ℚ) - 5) * 5 }

/-- The latency accumulator state of `main` (main.cpp lines 59-60):
`long long total_latency_us = 0; long long frame_count = 0;`. -/
structure Metrics where
  total_latency_us : ℤ
  frame_count : ℕ
deriving DecidableEq, Repr

/-- One recording step (main.cpp lines 77-78):
`total_latency_us += current_latency; frame_count++;`. -/
def Metrics.record (m : Metrics) (d : ℤ) : Metrics :=
  { total_latency_us := m.total_latency_us + d
    frame_count := m.frame_count + 1 }

/-- `double average_latency = (double)total_latency_us / frame_count;`
(main.cpp line 79), modelled over exact rationals. -/
def Metrics.average (m : Metrics) : ℚ :=
  (m.total_latency_us : ℚ) / (m.frame_count : ℚ)

/-- The accumulator after recording a list of durations, starting from the
zero-initialised state of main.cpp lines 59-60. -/
def recordAll (ds : List ℤ) : Metrics :=
  ds.foldl Metrics.record ⟨0, 0⟩

/-- The colour chosen in the render loop (main.cpp line 87):
`(i < NUM_PARTICLES/2) ? cv::Scalar(0, 0, 255) : cv::Scalar(0, 255, 255)`.
It reads only the index `i` and the population size. -/
def particleColor (numParticles i : ℕ) : ℕ × ℕ × ℕ :=
  if i < numParticles / 2 then (0, 0, 255) else (0, 255, 255)

/-- The colours of one rendered frame (main.cpp lines 86-89): the loop runs
`i` over `[0, N)` and assigns `particleColor N i` to slot `i`. -/
def renderColors (ps : List Particle) : List (ℕ × ℕ × ℕ) :=
  (List.range ps.length).map (particleColor ps.length)

/-- Whether the `while (true)` loop of `main` is still iterating or has
executed `break` (main.cpp lines 65-104). -/
inductive LoopStatus where
  | running : LoopStatus
  | stopped : LoopStatus
deriving DecidableEq, Repr

/-- The frame loop of `main` (main.cpp lines 65-104) driven by a finite
prefix of poll results: each iteration calls `update_particles` once,
then checks `if (cv::waitKey(16) == 27) break;`.  Returns the particle
state, the number of `update_particles` calls performed, and whether the
loop has stopped.  `n` threads the running step count. -/
def frameLoop (dt : ℚ) : List ℤ → List Particle → ℕ → List Particle × ℕ × LoopStatus
  | [], ps, n => (ps, n, LoopStatus.running)
  | k :: ks, ps, n =>
    let ps2 := update_particles ps dt
    if k = 27 then (ps2, n + 1, LoopStatus.stopped)
    else frameLoop dt ks ps2 (n + 1)

/-- The two banner lines printed at process start (main.cpp lines 62-63). -/
def startupBanner : List String :=
  ["Starting Legacy Simulation (C++ 98 Style)...", "Press ESC to quit."]

/-- The line printed at clean exit (main.cpp line 110). -/
def exitBanner : List String :=
  ["Simulation finished. Memory cleaned up."]

/-- C1: For every particle, the wall-reflection test reads the already
advanced position and the position is never clamped back inside the
domain; with `x=498, vx=10, dt=1` one step yields `x' = 508 > 500` with
`vx` flipped to `-10`, and `x'` is not reset to `500`. -/
theorem c1_reflection_post_update :
    (∀ (p : Particle) (dt : ℚ),
        (updateParticle p dt).x = p.x + p.vx * dt ∧
        (updateParticle p dt).y = p.y + p.vy * dt ∧
        (updateParticle p dt).vx =
          (if p.x + p.vx * dt < 0 ∨ p.x + p.vx * dt > 500 then -p.vx else p.vx)) ∧
    updateParticle ⟨498, 100, 10, 0⟩ 1 = ⟨508, 100, -10, 0⟩ ∧
    (updateParticle ⟨498, 100, 10, 0⟩ 1).x > 500 ∧
    (updateParticle ⟨498, 100, 10, 0⟩ 1).x ≠ 500 := by
  refine ⟨?_, ?_, ?_, ?_⟩
  · intro p dt
    refine ⟨rfl, rfl, ?_⟩
    simp only [updateParticle, mul_neg_one]
  · simp only [updateParticle]
    norm_num
  · simp only [updateParticle]
    norm_num
  · simp only [updateParticle]
    norm_num

/-- C2: After one `update_particles` call, every slot's position satisfies
exactly `x' = x + vx * dt` and `y' = y + vy * dt`: a single Euler update
with no sub-stepping. -/
theorem c2_affine_update :
    ∀ (ps : List Particle) (dt : ℚ) (i : ℕ),
      ((update_particles ps dt)[i]?).map Particle.x
          = (ps[i]?).map (fun p => p.x + p.vx * dt) ∧
      ((update_particles ps dt)[i]?).map Particle.y
          = (ps[i]?).map (fun p => p.y + p.vy * dt) := by
  intro ps dt i
  cases h : ps[i]? with
  | none =>
      have hmap : (update_particles ps dt)[i]? = none := by
        simp only [update_particles, List.getElem?_map, h, Option.map_none']
      simp [hmap, h]
  | some p =>
      have hmap : (update_particles ps dt)[i]? = some (updateParticle p dt) := by
        simp only [update_particles, List.getElem?_map, h, Option.map_some']
      simp [hmap, h, updateParticle]

/-- C5: `update_particles` maps each slot in place: iterating `step` any
number of times preserves the length of the particle list, and one call
neither adds, removes nor reorders slots (slot `i` of the output is the
update of slot `i` of the input). -/
theorem c5_population_invariant :
    ∀ (dt : ℚ) (ps : List Particle) (n : ℕ),
      ((fun s => update_particles s dt)^[n] ps).length = ps.length ∧
      ∀ i : ℕ, (update_particles ps dt)[i]?
          = (ps[i]?).map (fun p => updateParticle p dt) := by
  intro dt ps n
  constructor
  · induction n generalizing ps with
    | zero => rfl
    | succ m ih =>
        rw [Function.iterate_succ_apply]
        rw [ih (update_particles ps dt)]
        simp [update_particles]
  · intro i
    simp [update_particles, List.getElem?_map]

/-- C3: Every initialised slot has `x, y ∈ [0, 500)` and `vx, vy` in the
asymmetric ten-value set `{-25, -20, ..., 15, 20}`; the value `-25` is
reachable while `+25` is not. -/
theorem c3_init_bounds :
    (∀ r1 r2 r3 r4 : ℕ,
        0 ≤ (initParticle r1 r2 r3 r4).x ∧ (initParticle r1 r2 r3 r4).x < 500 ∧
        0 ≤ (initParticle r1 r2 r3 r4).y ∧ (initParticle r1 r2 r3 r4).y < 500 ∧
        (initParticle r1 r2 r3 r4).vx
            ∈ ([-25, -20, -15, -10, -5, 0, 5, 10, 15, 20] : List ℚ) ∧
        (initParticle r1 r2 r3 r4).vy
            ∈ ([-25, -20, -15, -10, -5, 0, 5, 10, 15, 20] : List ℚ)) ∧
    (∃ r1 r2 r3 r4 : ℕ, (initParticle r1 r2 r3 r4).vx = -25) ∧
    (∀ r1 r2 r3 r4 : ℕ, (initParticle r1 r2 r3 r4).vx ≠ 25) := by
  have hvel : ∀ r : ℕ,
      (((r % 10 : ℕ) : ℚ) - 5) * 5
        ∈ ([-25, -20, -15, -10, -5, 0, 5, 10, 15, 20] : List ℚ) ∧
      (((r % 10 : ℕ) : ℚ) - 5) * 5 ≠ 25 := by
    intro r
    have hr : r % 10 < 10 := Nat.mod_lt r (by norm_num)
    generalize r % 10 = m at hr ⊢
    interval_cases m <;> norm_num
  have hpos : ∀ r : ℕ,
      (0 : ℚ) ≤ ((r % 500 : ℕ) : ℚ) ∧ ((r % 500 : ℕ) : ℚ) < 500 := by
    intro r
    have hr : r % 500 < 500 := Nat.mod_lt r (by norm_num)
    exact ⟨by positivity, by exact_mod_cast hr⟩
  refine ⟨?_, ⟨0, 0, 0, 0, by norm_num [initParticle]⟩, ?_⟩
  · intro r1 r2 r3 r4
    exact ⟨(hpos r1).1, (hpos r1).2, (hpos r2).1, (hpos r2).2,
      (hvel r3).1, (hvel r4).1⟩
  · intro r1 r2 r3 r4
    exact (hvel r3).2

/-- C4: The accumulator's average is the true arithmetic mean of every
duration ever recorded; recording `10, 20, 30` yields the averages
`10`, `15`, `20` after each record. -/
theorem c4_running_mean :
    (∀ ds : List ℤ,
        (recordAll ds).average = ((ds.sum : ℚ)) / ((ds.length : ℕ) : ℚ)) ∧
    (recordAll [10]).average = 10 ∧
    (recordAll [10, 20]).average = 15 ∧
    (recordAll [10, 20, 30]).average = 20 := by
  have hfold : ∀ (ds : List ℤ) (m : Metrics),
      (ds.foldl Metrics.record m).total_latency_us = m.total_latency_us + ds.sum ∧
      (ds.foldl Metrics.record m).frame_count = m.frame_count + ds.length := by
    intro ds
    induction ds with
    | nil => intro m; simp
    | cons d ds ih =>
        intro m
        obtain ⟨h1, h2⟩ := ih (m.record d)
        refine ⟨?_, ?_⟩
        · rw [List.foldl_cons, h1]
          simp [Metrics.record]
          ring
        · rw [List.foldl_cons, h2]
          simp [Metrics.record]
          ring
  have hgen : ∀ ds : List ℤ,
      (recordAll ds).average = ((ds.sum : ℚ)) / ((ds.length : ℕ) : ℚ) := by
    intro ds
    obtain ⟨h1, h2⟩ := hfold ds ⟨0, 0⟩
    simp only [recordAll, Metrics.average, h1, h2]
    norm_num
  refine ⟨hgen, ?_, ?_, ?_⟩
  · rw [hgen [10]]; norm_num
  · rw [hgen [10, 20]]; norm_num
  · rw [hgen [10, 20, 30]]; norm_num

/-- C10: `update_particles` only ever negates velocity components, so the
velocity magnitudes of every slot are exactly preserved across any number
of calls. -/
theorem c10_speed_invariant :
    ∀ (dt : ℚ) (ps : List Particle) (n i : ℕ),
      ((((fun s => update_particles s dt)^[n] ps)[i]?).map
          (fun p => (|p.vx|, |p.vy|)))
        = (ps[i]?).map (fun p => (|p.vx|, |p.vy|)) := by
  have hone : ∀ (p : Particle) (dt : ℚ),
      |(updateParticle p dt).vx| = |p.vx| ∧ |(updateParticle p dt).vy| = |p.vy| := by
    intro p dt
    simp only [updateParticle, mul_neg_one]
    constructor
    · split <;> simp
    · split <;> simp
  intro dt ps n
  induction n generalizing ps with
  | zero => intro i; rfl
  | succ m ih =>
      intro i
      rw [Function.iterate_succ_apply, ih (update_particles ps dt)]
      cases h : ps[i]? with
      | none =>
          simp only [update_particles, List.getElem?_map, h, Option.map_none']
      | some p =>
          simp only [update_particles, List.getElem?_map, h, Option.map_some']
          simp [(hone p dt).1, (hone p dt).2]

/-- C6: A poll result of `27` stops the frame loop at that iteration's
check — the loop performs exactly one `update_particles` call per
iteration up to and including the iteration that polls `27`, and none of
the later poll results `post` cause any further call; any poll result
other than `27` repeats the loop. -/
theorem c6_cancellation :
    (∀ (dt : ℚ) (ps : List Particle) (pre post : List ℤ) (n : ℕ),
        (∀ k ∈ pre, k ≠ 27) →
        frameLoop dt (pre ++ 27 :: post) ps n =
          ((fun s => update_particles s dt)^[pre.length + 1] ps,
            n + (pre.length + 1), LoopStatus.stopped)) ∧
    (∀ (dt : ℚ) (ps : List Particle) (k : ℤ) (ks : List ℤ) (n : ℕ),
        k ≠ 27 →
        frameLoop dt (k :: ks) ps n
          = frameLoop dt ks (update_particles ps dt) (n + 1)) := by
  constructor
  · intro dt ps pre post n hpre
    induction pre generalizing ps n with
    | nil => simp [frameLoop]
    | cons k pre ih =>
        have hk : k ≠ 27 := hpre k (List.mem_cons_self k pre)
        have hrest : ∀ k' ∈ pre, k' ≠ 27 := fun k' hmem => hpre k' (List.mem_cons_of_mem k hmem)
        have hstep : frameLoop dt ((k :: pre) ++ 27 :: post) ps n
            = frameLoop dt (pre ++ 27 :: post) (update_particles ps dt) (n + 1) := by
          simp [frameLoop, hk]
        rw [hstep, ih (update_particles ps dt) (n + 1) hrest]
        refine congrArg₂ Prod.mk ?_ (congrArg₂ Prod.mk ?_ rfl)
        · simp only [List.length_cons, Function.iterate_succ_apply]
        · simp only [List.length_cons]
          omega
  · intro dt ps k ks n hk
    simp [frameLoop, hk]

/-- C6 witness: with poll results `3, 27, 99`, the loop performs exactly
two `update_particles` calls and stops; the trailing `99` is never
reached. -/
theorem c6_cancellation_witness :
    frameLoop 1 [3, 27, 99] [] 0
      = ((fun s => update_particles s 1)^[2] [], 2, LoopStatus.stopped) :=
  c6_cancellation.1 1 [] [3] [99] 0 (by decide)

/-- C7: In every rendered frame, slots with index below half the
population get colour `(0, 0, 255)` and the remaining slots get
`(0, 255, 255)`; the assignment depends only on the index and the
population size, never on positions or velocities, and the two colours
differ. -/
theorem c7_color_partition :
    ∀ (ps : List Particle) (i : ℕ),
      (i < ps.length / 2 → (renderColors ps)[i]? = some (0, 0, 255)) ∧
      (ps.length / 2 ≤ i → i < ps.length →
          (renderColors ps)[i]? = some (0, 255, 255)) ∧
      (∀ qs : List Particle, qs.length = ps.length →
          renderColors qs = renderColors ps) ∧
      ((0, 0, 255) : ℕ × ℕ × ℕ) ≠ (0, 255, 255) := by
  intro ps i
  refine ⟨?_, ?_, ?_, by decide⟩
  · intro hlt
    have hi : i < ps.length := lt_of_lt_of_le hlt (Nat.div_le_self _ _)
    simp [renderColors, List.getElem?_map, List.getElem?_range, hi, particleColor, hlt]
  · intro hge hlt
    simp only [renderColors, List.getElem?_map, List.getElem?_range, hlt,
      Option.map_some', particleColor]
    rw [if_neg (by omega)]
  · intro qs hlen
    simp [renderColors, hlen]

/-- C7 witness: in a two-particle frame the first slot is red
`(0, 0, 255)` and the second is yellow `(0, 255, 255)`. -/
theorem c7_color_partition_witness :
    (renderColors [⟨0, 0, 0, 0⟩, ⟨9, 9, 9, 9⟩])[0]? = some (0, 0, 255) ∧
    (renderColors [⟨0, 0, 0, 0⟩, ⟨9, 9, 9, 9⟩])[1]? = some (0, 255, 255) := by
  constructor
  · exact (c7_color_partition [⟨0, 0, 0, 0⟩, ⟨9, 9, 9, 9⟩] 0).1 (by simp)
  · exact (c7_color_partition [⟨0, 0, 0, 0⟩, ⟨9, 9, 9, 9⟩] 1).2.1 (by simp) (by simp)

/-- C8 counterexample: the program's banner lines are not the two lines
the claim states — the first line actually printed is
"Starting Legacy Simulation (C++ 98 Style)..." and the exit line is
"Simulation finished. Memory cleaned up.". -/
theorem c8_banner_counterexample :
    ¬ (startupBanner = ["Starting Legacy Simulation...", "Press ESC to quit."] ∧
       exitBanner = ["Simulation finished."]) := by
  intro h
  exact absurd h.1 (by decide)

/-- C8 (amended): the console output consists of exactly the two literal
banner lines "Starting Legacy Simulation (C++ 98 Style)..." and
"Press ESC to quit." at process start, and the one literal line
"Simulation finished. Memory cleaned up." at clean exit. -/
theorem c8_console_output :
    startupBanner
        = ["Starting Legacy Simulation (C++ 98 Style)...", "Press ESC to quit."] ∧
    exitBanner = ["Simulation finished. Memory cleaned up."] :=
  ⟨rfl, rfl⟩
